import Mathlib

/-!
Shallow embedding of `src/photo_organizer.py` (a photo-organizing desktop
utility).  The core consists of a date resolver (`_get_date_taken`), a
directory scan building a catalog of photo records (`load_photos`), a
per-record action setter (`set_action`) and a batch worker applying the
pending actions (`process_files` / `_process_worker`).

Modelling conventions:
  * Python `datetime` values become the `DateTime` structure below;
    `datetime.strptime(s, "%Y:%m:%d %H:%M:%S")` becomes `parseExifDate`,
    returning `none` where Python raises `ValueError`.
  * Filesystem state is a `World` (the set of existing regular files and
    directories); external failure causes (permissions, locks) are an
    oracle `Perm`.  Every filesystem call the worker makes is recorded in
    an `IOOp` trace so that claims about which I/O happens are provable.
  * Exceptions become `Except` / `Option` values: a raised-and-uncaught
    exception is an `Except.error` (the Python worker thread dies there).
-/

/-- A calendar date and time, as a (naive) Python `datetime`. -/
structure DateTime where
  year : Nat
  month : Nat
  day : Nat
  hour : Nat
  minute : Nat
  second : Nat
deriving DecidableEq, Repr

/-- Gregorian leap-year rule, as validated by Python's `datetime`. -/
def isLeapYear (y : Nat) : Bool :=
  (y % 4 == 0 && y % 100 != 0) || y % 400 == 0

/-- Number of days of month `m` in year `y` (Python `calendar` rule). -/
def daysInMonth (y m : Nat) : Nat :=
  if m = 2 then (if isLeapYear y then 29 else 28)
  else if m = 4 ∨ m = 6 ∨ m = 9 ∨ m = 11 then 30
  else 31

/-- Split a character list at every occurrence of `c`, keeping empty
pieces, like Python `str.split(c)`. -/
def splitChar (c : Char) : List Char → List (List Char)
  | [] => [[]]
  | x :: xs =>
    if x = c then [] :: splitChar c xs
    else
      match splitChar c xs with
      | [] => [[x]]
      | y :: ys => (x :: y) :: ys

/-- Read a non-empty all-digit character list as a number. -/
def digitsToNat (cs : List Char) : Option Nat :=
  if cs ≠ [] ∧ cs.all Char.isDigit then
    some (cs.foldl (fun n c => n * 10 + (c.toNat - 48)) 0)
  else none

/-- A numeric `strptime` field of at most `maxLen` digits. -/
def parseField (cs : List Char) (maxLen : Nat) : Option Nat :=
  if cs.length ≤ maxLen then digitsToNat cs else none

/-- Model of `datetime.strptime(s, "%Y:%m:%d %H:%M:%S")`: four-digit year,
one/two-digit month, day, hour, minute and second separated by literal
colons, the date and time halves separated by (one or more) spaces, with
calendar validation; `none` where Python raises `ValueError`. -/
def parseExifDate (s : String) : Option DateTime :=
  let parts := splitChar ' ' s.toList
  if parts.head? = some ([] : List Char) ∨ parts.getLast? = some ([] : List Char) then
    none
  else
    match parts.filter (fun p => p ≠ []) with
    | [d, t] =>
      match splitChar ':' d, splitChar ':' t with
      | [ys, mos, ds], [hs, mins, ss] => do
        let y ← if ys.length = 4 then digitsToNat ys else none
        let mo ← parseField mos 2
        let dy ← parseField ds 2
        let h ← parseField hs 2
        let mi ← parseField mins 2
        let sec ← parseField ss 2
        if 1 ≤ y ∧ 1 ≤ mo ∧ mo ≤ 12 ∧ 1 ≤ dy ∧ dy ≤ daysInMonth y mo ∧
            h ≤ 23 ∧ mi ≤ 59 ∧ sec ≤ 59 then
          some (DateTime.mk y mo dy h mi sec)
        else none
      | _, _ => none
    | _ => none

/-- An image's embedded Exif date fields, as strings (the two tags the
code looks at: `DateTimeOriginal` preferred, then `DateTime`). -/
structure ExifData where
  dateTimeOriginal : Option String
  dateTime : Option String
deriving DecidableEq, Repr

/-- What the resolver can observe about one file: the Exif data (or
`none` when the file cannot be opened as an image / `getexif` raises)
and the filesystem modification timestamp `st_mtime`. -/
structure FileMeta where
  exif : Option ExifData
  mtime : DateTime
deriving DecidableEq, Repr

/-- Model of `PhotoOrganizerApp._get_date_taken`: prefer `DateTimeOriginal`, then
`DateTime`; the `strptime` call sits inside the `try`, so a present but
unparsable field raises and falls straight back to the filesystem
timestamp (the surrounding `except Exception: pass` swallows it). -/
def get_date_taken (f : FileMeta) : DateTime :=
  match f.exif with
  | none => f.mtime
  | some e =>
    match e.dateTimeOriginal with
    | some s => (parseExifDate s).getD f.mtime
    | none =>
      match e.dateTime with
      | some s => (parseExifDate s).getD f.mtime
      | none => f.mtime

/-- Left-pad the decimal digits of `n` with zeros to width `w`. -/
def padNum (w n : Nat) : String :=
  let s := toString n
  String.mk (List.replicate (w - s.length) '0') ++ s

/-- Model of `PhotoItem.date_label`: `date_taken.strftime("%Y-%m-%d")`. -/
def dateLabel (dt : DateTime) : String :=
  padNum 4 dt.year ++ "-" ++ padNum 2 dt.month ++ "-" ++ padNum 2 dt.day

/-- Model of `pathlib.PurePath.suffix` on a file name: the final component from
the last dot on, empty when there is no dot, the dot is the last
character, or the dot is the leading character (hidden files). -/
def pathSuffix (name : List Char) : List Char :=
  let k := (name.reverse.takeWhile (fun c => c ≠ '.')).length
  if k = name.length then []
  else if k = 0 then []
  else if name.length = k + 1 then []
  else name.drop (name.length - k - 1)

/-- Model of `pathlib.PurePath.name`: the part of the path after the last `/`. -/
def pathName (path : String) : String :=
  String.mk ((path.toList.reverse.takeWhile (fun c => c ≠ '/')).reverse)

/-- Python `str.lower` restricted to what the extension check needs
(ASCII letters). -/
def lowerChar (c : Char) : Char :=
  if 'A' ≤ c ∧ c ≤ 'Z' then Char.ofNat (c.toNat + 32) else c

/-- The set `SUPPORTED_EXTENSIONS` from the source, as character lists. -/
def SUPPORTED_EXTENSIONS : List (List Char) :=
  [".jpg".toList, ".jpeg".toList, ".png".toList, ".heic".toList,
   ".tif".toList, ".tiff".toList, ".bmp".toList]

/-- The `PhotoItem` dataclass: source path, derived date, pending action
(default `"Copy"`), and the UI list-row id assigned after insertion. -/
structure PhotoItem where
  path : String
  date_taken : DateTime
  action : String := "Copy"
  item_id : Option String := none
deriving DecidableEq, Repr

/-- The `PhotoItem.name` property: the file's base name. -/
def PhotoItem.name (p : PhotoItem) : String :=
  pathName p.path

/-- The `PhotoItem.date_label` property. -/
def PhotoItem.date_label (p : PhotoItem) : String :=
  dateLabel p.date_taken

/-- One entry of `source_dir.iterdir()`: its name, whether it is a
regular file, and what the date resolver can observe about it. -/
structure DirEntry where
  name : String
  isFile : Bool
  meta : FileMeta
deriving DecidableEq, Repr

/-- The filter in the scan loop: `entry.is_file() and entry.suffix.lower()
in SUPPORTED_EXTENSIONS` (entries failing it are skipped silently). -/
def keepEntry (e : DirEntry) : Bool :=
  e.isFile && SUPPORTED_EXTENSIONS.contains ((pathSuffix e.name.toList).map lowerChar)

/-- Ordering used by `sorted(self.source_dir.iterdir())`: entries of one
directory compare by their names (code-point lexicographic, the POSIX
`PurePath` order). -/
def entryLe (a b : DirEntry) : Prop :=
  a.name ≤ b.name

instance : DecidableRel entryLe :=
  fun a b => inferInstanceAs (Decidable (a.name ≤ b.name))

instance : IsTotal DirEntry entryLe :=
  ⟨fun a b => le_total a.name b.name⟩

instance : IsTrans DirEntry entryLe :=
  ⟨fun _ _ _ h₁ h₂ => le_trans h₁ h₂⟩

/-- Model of `sorted(self.source_dir.iterdir())`. -/
def sortEntries (entries : List DirEntry) : List DirEntry :=
  List.insertionSort entryLe entries

/-- The record-building part of `PhotoOrganizerApp.load_photos`: sort the
listing, keep supported regular files, build a `PhotoItem` per kept entry
with the resolved date (the dataclass default supplies `action = "Copy"`
and `item_id = None`; the tree-view id is assigned by the UI afterwards). -/
def load_photos (sourceDir : String) (entries : List DirEntry) : List PhotoItem :=
  ((sortEntries entries).filter keepEntry).map (fun e =>
    { path := sourceDir ++ "/" ++ e.name, date_taken := get_date_taken e.meta })

/-- Outcome of one call of `PhotoOrganizerApp.load_photos`, carrying the
catalog (`self.photos`) as it stands when the call ends. -/
inductive ScanResult where
  /-- Field `source_dir` unset: the method returns at once, old catalog kept. -/
  | noSource (photos : List PhotoItem)
  /-- Call `iterdir()` raised (directory missing/unreadable): the exception is
  not caught anywhere in the method, so it escapes after
  `self.photos.clear()` has already emptied the catalog. -/
  | crashed (photos : List PhotoItem)
  /-- Normal completion with the freshly built catalog. -/
  | loaded (photos : List PhotoItem)
deriving DecidableEq, Repr

/-- Model of `PhotoOrganizerApp.load_photos` as a whole: `listing` is
`some entries` when the source directory can be listed and `none` when
`iterdir()` raises (missing or unreadable directory). -/
def load_photos_run (sourceDir : Option String) (listing : Option (List DirEntry))
    (prev : List PhotoItem) : ScanResult :=
  match sourceDir with
  | none => ScanResult.noSource prev
  | some src =>
    match listing with
    | none => ScanResult.crashed []
    | some entries => ScanResult.loaded (load_photos src entries)

/-- Model of `PhotoOrganizerApp.set_action`: walk the catalog, set the action of
the first record whose `item_id` matches the selected row, then stop. -/
def set_action (photos : List PhotoItem) (item_id : String) (action : String) :
    List PhotoItem :=
  match photos with
  | [] => []
  | p :: rest =>
    if p.item_id = some item_id then { p with action := action } :: rest
    else p :: set_action rest item_id action

/-- One filesystem call made by the batch worker. -/
inductive IOOp where
  | unlink (path : String)
  | mkdir (dir : String)
  | copy (src dst : String)
deriving DecidableEq, Repr

/-- Filesystem state: the existing regular files and directories. -/
structure World where
  files : List String
  dirs : List String
deriving DecidableEq, Repr

/-- External failure oracle: whether the OS lets a given `unlink`,
`mkdir` or `copy2` call succeed (permissions, locks, full disk ...),
beyond the failure causes the `World` itself captures. -/
structure Perm where
  unlinkOk : String → Bool
  mkdirOk : String → Bool
  copyOk : String → String → Bool

/-- The worker's accounting: the three counters, the error notifications
it has posted (`_notify_error` messages), and the trace of filesystem
calls it has made. -/
structure BatchState where
  copied : Nat
  skipped : Nat
  deleted : Nat
  failures : List String
  ops : List IOOp
deriving DecidableEq, Repr

/-- Counters at the top of `_process_worker`. -/
def initState : BatchState :=
  { copied := 0, skipped := 0, deleted := 0, failures := [], ops := [] }

/-- Add a path to a listing unless already present (used for `mkdir`
with `exist_ok=True` and for `copy2` overwriting an existing file). -/
def insertPath (l : List String) (x : String) : List String :=
  if x ∈ l then l else l ++ [x]

/-- One iteration of the loop in `PhotoOrganizerApp._process_worker`.
`Skip` counts and does no I/O; `Delete` tries `path.unlink()` inside a
`try` (success removes the file and counts, failure posts a notification);
every other action string falls through to the copy branch:
`date_folder.mkdir(parents=True, exist_ok=True)` runs OUTSIDE any `try`,
so a failing `mkdir` raises out of the worker (`Except.error`); then
`shutil.copy2` inside a `try` counts on success and posts a notification
on failure, overwriting any existing destination file. -/
def processPhoto (perm : Perm) (dest : String) (w : World) (s : BatchState)
    (photo : PhotoItem) : Except (World × BatchState) (World × BatchState) :=
  if photo.action = "Skip" then
    Except.ok (w, { s with skipped := s.skipped + 1 })
  else if photo.action = "Delete" then
    if photo.path ∈ w.files ∧ perm.unlinkOk photo.path then
      Except.ok ({ w with files := w.files.erase photo.path },
        { s with deleted := s.deleted + 1, ops := s.ops ++ [IOOp.unlink photo.path] })
    else
      Except.ok (w,
        { s with failures := s.failures ++ ["Could not delete " ++ photo.path],
                 ops := s.ops ++ [IOOp.unlink photo.path] })
  else
    let date_folder := dest ++ "/" ++ photo.date_label
    if perm.mkdirOk date_folder then
      let w1 : World := { w with dirs := insertPath w.dirs date_folder }
      let destination_file := date_folder ++ "/" ++ photo.name
      if photo.path ∈ w1.files ∧ perm.copyOk photo.path destination_file then
        Except.ok ({ w1 with files := insertPath w1.files destination_file },
          { s with copied := s.copied + 1,
                   ops := s.ops ++ [IOOp.mkdir date_folder,
                                    IOOp.copy photo.path destination_file] })
      else
        Except.ok (w1,
          { s with failures := s.failures ++ ["Could not copy " ++ photo.name],
                   ops := s.ops ++ [IOOp.mkdir date_folder,
                                    IOOp.copy photo.path destination_file] })
    else
      Except.error (w, { s with ops := s.ops ++ [IOOp.mkdir date_folder] })

/-- Model of `PhotoOrganizerApp._process_worker`: the loop over `self.photos` in
catalog order; an uncaught exception (`Except.error`) ends the worker
thread, leaving the remaining records unprocessed. -/
def processWorker (perm : Perm) (dest : String) :
    List PhotoItem → World → BatchState → Except (World × BatchState) (World × BatchState)
  | [], w, s => Except.ok (w, s)
  | p :: rest, w, s =>
    match processPhoto perm dest w s p with
    | Except.ok (w1, s1) => processWorker perm dest rest w1 s1
    | Except.error e => Except.error e

/-- Outcome of `PhotoOrganizerApp.process_files`, each early return as a
constructor carrying the untouched filesystem. -/
inductive RunOutcome where
  /-- Field `destination_dir` unset: warning dialog, batch never started. -/
  | destinationMissing (w : World)
  /-- Empty catalog: info dialog, batch never started. -/
  | nothingToDo (w : World)
  /-- A `Delete` is pending and the user declined the confirmation. -/
  | cancelled (w : World)
  /-- The worker thread ran. -/
  | ran (r : Except (World × BatchState) (World × BatchState))

/-- Model of `PhotoOrganizerApp.process_files`: guard the destination, guard a
non-empty catalog, gate pending deletes behind the confirmation dialog,
then hand the catalog to the worker. -/
def process_files (destination_dir : Option String) (photos : List PhotoItem)
    (confirmDelete : Bool) (perm : Perm) (w : World) : RunOutcome :=
  match destination_dir with
  | none => RunOutcome.destinationMissing w
  | some dest =>
    if photos = [] then RunOutcome.nothingToDo w
    else if photos.any (fun p => p.action = "Delete") && !confirmDelete then
      RunOutcome.cancelled w
    else RunOutcome.ran (processWorker perm dest photos w initState)

/-- The filesystem calls the claims predict for one record: none for
`Skip`, one `unlink` attempt for `Delete`, and a `mkdir` of the
date-labeled folder followed by one `copy` attempt otherwise. -/
def opsOf (dest : String) (p : PhotoItem) : List IOOp :=
  if p.action = "Skip" then []
  else if p.action = "Delete" then [IOOp.unlink p.path]
  else [IOOp.mkdir (dest ++ "/" ++ p.date_label),
        IOOp.copy p.path (dest ++ "/" ++ p.date_label ++ "/" ++ p.name)]

/-! ## Date resolver (claims C3, C4) -/

/-- File whose `DateTimeOriginal` tag is present but malformed while its
`DateTime` tag holds a well-formed date; mtime differs from both. -/
def metaMalformedOriginal : FileMeta :=
  { exif := some { dateTimeOriginal := some "not a date",
                   dateTime := some "2021:05:01 10:00:00" },
    mtime := DateTime.mk 2030 1 2 3 4 5 }

/-- C3 counterexample: with a present-but-malformed `DateTimeOriginal`
and a well-formed `DateTime` field, the resolver returns the filesystem
timestamp, not the `DateTime` field — the claimed fall-through to the
last-modified metadata field does not happen. -/
theorem c3_counterexample :
    parseExifDate "not a date" = none ∧
    parseExifDate "2021:05:01 10:00:00" = some (DateTime.mk 2021 5 1 10 0 0) ∧
    get_date_taken metaMalformedOriginal = DateTime.mk 2030 1 2 3 4 5 ∧
    get_date_taken metaMalformedOriginal ≠ DateTime.mk 2021 5 1 10 0 0 := by
  exact ⟨rfl, rfl, rfl, by decide⟩

/-- C3 (amended): the resolver returns a parsed `DateTimeOriginal` when
present and well-formed; a present-but-malformed `DateTimeOriginal`
falls straight back to the filesystem timestamp; only when
`DateTimeOriginal` is absent is `DateTime` consulted (well-formed →
returned, malformed or absent → filesystem timestamp); no Exif data at
all also yields the filesystem timestamp. -/
theorem c3_amended_resolver (f : FileMeta) :
    (∀ e s d, f.exif = some e → e.dateTimeOriginal = some s →
      parseExifDate s = some d → get_date_taken f = d) ∧
    (∀ e s, f.exif = some e → e.dateTimeOriginal = some s →
      parseExifDate s = none → get_date_taken f = f.mtime) ∧
    (∀ e s d, f.exif = some e → e.dateTimeOriginal = none → e.dateTime = some s →
      parseExifDate s = some d → get_date_taken f = d) ∧
    (∀ e s, f.exif = some e → e.dateTimeOriginal = none → e.dateTime = some s →
      parseExifDate s = none → get_date_taken f = f.mtime) ∧
    (∀ e, f.exif = some e → e.dateTimeOriginal = none → e.dateTime = none →
      get_date_taken f = f.mtime) ∧
    (f.exif = none → get_date_taken f = f.mtime) := by
  refine ⟨?_, ?_, ?_, ?_, ?_, ?_⟩ <;> intros <;> simp_all [get_date_taken]

/-- C3 witness: the amended theorem applied to a file whose only date
field is a well-formed `DateTime` tag. -/
theorem c3_amended_witness :
    get_date_taken
      { exif := some { dateTimeOriginal := none,
                       dateTime := some "2021:05:01 10:00:00" },
        mtime := DateTime.mk 2030 1 2 3 4 5 } = DateTime.mk 2021 5 1 10 0 0 := by
  exact (c3_amended_resolver _).2.2.1 _ "2021:05:01 10:00:00" _ rfl rfl rfl rfl

/-- C4: the resolver is total — on any input it returns either a
successfully parsed metadata field or the filesystem modification
timestamp; in particular a file that cannot be opened as an image at all
(no Exif data observable) resolves to its modification timestamp. -/
theorem c4_resolver_total (f : FileMeta) :
    (f.exif = none → get_date_taken f = f.mtime) ∧
    (get_date_taken f = f.mtime ∨
      ∃ s, (f.exif.bind ExifData.dateTimeOriginal = some s ∨
            f.exif.bind ExifData.dateTime = some s) ∧
        parseExifDate s = some (get_date_taken f)) := by
  constructor
  · intro h
    simp [get_date_taken, h]
  · rcases f with ⟨exif, mtime⟩
    cases exif with
    | none => exact Or.inl rfl
    | some e =>
      cases hO : e.dateTimeOriginal with
      | some s =>
        cases hp : parseExifDate s with
        | none => exact Or.inl (by simp [get_date_taken, hO, hp])
        | some d =>
          exact Or.inr ⟨s, Or.inl (by simp [hO]), by simp [get_date_taken, hO, hp]⟩
      | none =>
        cases hD : e.dateTime with
        | none => exact Or.inl (by simp [get_date_taken, hO, hD])
        | some s =>
          cases hp : parseExifDate s with
          | none => exact Or.inl (by simp [get_date_taken, hO, hD, hp])
          | some d =>
            exact Or.inr ⟨s, Or.inr (by simp [hD]), by simp [get_date_taken, hO, hD, hp]⟩

/-- C4 witness: a zero-byte file with a supported extension cannot be
opened as an image, so no Exif is observable and the resolver yields the
modification timestamp. -/
theorem c4_resolver_total_witness :
    get_date_taken { exif := none, mtime := DateTime.mk 2022 1 10 0 0 0 } =
      DateTime.mk 2022 1 10 0 0 0 := by
  exact (c4_resolver_total { exif := none, mtime := DateTime.mk 2022 1 10 0 0 0 }).1 rfl

/-! ## Catalog scan (claims C5, C6, C7) -/

/-- Lemma: `takeWhile` swallows a whole satisfying block and stops at the first
failing element. -/
theorem takeWhile_append_stop {α : Type} (p : α → Bool) (l₁ l₂ : List α) (a : α)
    (h : ∀ c ∈ l₁, p c = true) (ha : p a = false) :
    (l₁ ++ a :: l₂).takeWhile p = l₁ := by
  induction l₁ with
  | nil => simp [List.takeWhile, ha]
  | cons x xs ih =>
    have hx : p x = true := h x (List.mem_cons_self x xs)
    simp only [List.cons_append, List.takeWhile, hx]
    simpa using ih (fun c hc => h c (List.mem_cons_of_mem x hc))

/-- The base name of `dir ++ "/" ++ n` is `n` when `n` has no slash. -/
theorem pathName_append (src n : String) (hn : ('/' : Char) ∉ n.toList) :
    pathName (src ++ "/" ++ n) = n := by
  have hdata : (src ++ "/" ++ n).toList = src.toList ++ '/' :: n.toList := by
    simp [String.toList, String.data_append]
  have hrev : (src ++ "/" ++ n).toList.reverse =
      n.toList.reverse ++ '/' :: src.toList.reverse := by
    simp [hdata]
  have htw : ((src ++ "/" ++ n).toList.reverse.takeWhile (fun c => c ≠ '/')) =
      n.toList.reverse := by
    rw [hrev]
    refine takeWhile_append_stop _ _ _ _ ?_ (by simp)
    intro c hc
    simp only [ne_eq, decide_eq_true_eq]
    intro hcontra
    exact hn (by simpa [hcontra] using List.mem_reverse.1 hc)
  show String.mk _ = n
  rw [htw, List.reverse_reverse]
  rfl

/-- C5: the catalog built by a scan has exactly one record per regular
file with a supported extension (case-insensitive), in the sorted order,
and every record's action defaults to `"Copy"`; subdirectories and
unsupported files contribute nothing. -/
theorem c5_scan_catalog (src : String) (entries : List DirEntry) :
    (load_photos src entries).length = (entries.filter keepEntry).length ∧
    (load_photos src entries).map PhotoItem.path =
      ((sortEntries entries).filter keepEntry).map (fun e => src ++ "/" ++ e.name) ∧
    ∀ p ∈ load_photos src entries, p.action = "Copy" := by
  refine ⟨?_, ?_, ?_⟩
  · have hperm := (List.perm_insertionSort entryLe entries).filter keepEntry
    simpa [load_photos, List.length_map, sortEntries] using hperm.length_eq
  · simp [load_photos, List.map_map]
  · intro p hp
    simp only [load_photos, List.mem_map] at hp
    obtain ⟨e, _, rfl⟩ := hp
    rfl

/-- C6: catalog order is the lexicographic order of the scanned file
names (given that directory-entry names contain no path separator). -/
theorem c6_scan_order (src : String) (entries : List DirEntry)
    (hn : ∀ e ∈ entries, ('/' : Char) ∉ e.name.toList) :
    List.Sorted (fun a b : String => a ≤ b)
      ((load_photos src entries).map PhotoItem.name) := by
  have hmap : (load_photos src entries).map PhotoItem.name =
      ((sortEntries entries).filter keepEntry).map (fun e => e.name) := by
    simp only [load_photos, List.map_map]
    refine List.map_congr_left ?_
    intro e he
    have he2 : e ∈ entries :=
      ((List.perm_insertionSort entryLe entries).mem_iff).1 (List.mem_of_mem_filter he)
    exact pathName_append src e.name (hn e he2)
  rw [hmap]
  have hs : List.Sorted entryLe (sortEntries entries) :=
    List.sorted_insertionSort entryLe entries
  have hf : List.Sorted entryLe ((sortEntries entries).filter keepEntry) :=
    List.Pairwise.sublist (List.filter_sublist _) hs
  exact List.Pairwise.map _ (fun a b h => h) hf

/-- Directory listing used to witness the scan-order claim. -/
def entriesForOrder : List DirEntry :=
  [{ name := "b.png", isFile := true,
     meta := { exif := none, mtime := DateTime.mk 2022 1 10 0 0 0 } },
   { name := "a.jpg", isFile := true,
     meta := { exif := some { dateTimeOriginal := some "2021:05:01 10:00:00",
                              dateTime := none },
               mtime := DateTime.mk 2000 1 1 0 0 0 } },
   { name := "c.txt", isFile := true,
     meta := { exif := none, mtime := DateTime.mk 2000 1 1 0 0 0 } }]

/-- C6 witness: the order theorem applied to a concrete listing. -/
theorem c6_scan_order_witness :
    (∀ e ∈ entriesForOrder, ('/' : Char) ∉ e.name.toList) ∧
    List.Sorted (fun a b : String => a ≤ b)
      ((load_photos "src" entriesForOrder).map PhotoItem.name) := by
  exact ⟨by decide, c6_scan_order "src" entriesForOrder (by decide)⟩

/-- A record standing in the catalog before a re-scan. -/
def prevPhoto : PhotoItem :=
  { path := "src/old.jpg", date_taken := DateTime.mk 2020 1 1 0 0 0 }

/-- C7 counterexample: scanning an unavailable source directory does not
produce a handled `DirectoryUnavailable` condition — the `iterdir()`
exception escapes the method unhandled (`crashed`), and only after the
previous catalog (here non-empty) has already been cleared, so the abort
is neither graceful nor free of side effects. -/
theorem c7_counterexample :
    load_photos_run (some "/gone") none [prevPhoto] = ScanResult.crashed [] ∧
    [prevPhoto] ≠ ([] : List PhotoItem) := by
  exact ⟨rfl, by decide⟩

/-- C7 (amended): with a listable source directory the scan completes and
signals no error; with a missing/unreadable directory the `iterdir()`
exception escapes unhandled, after the old catalog has been cleared; with
no source directory set the scan returns at once keeping the catalog. -/
theorem c7_amended_scan (src : String) (listing : List DirEntry) (prev : List PhotoItem) :
    load_photos_run (some src) (some listing) prev =
      ScanResult.loaded (load_photos src listing) ∧
    load_photos_run (some src) none prev = ScanResult.crashed [] ∧
    ∀ l, load_photos_run none l prev = ScanResult.noSource prev := by
  exact ⟨rfl, rfl, fun _ => rfl⟩

/-! ## Per-record action mutation (claims C8, C10) -/

/-- Helper: `set_action` rewrites at most the matched record's `action` field:
pointwise, path, date and row id are untouched, and a record whose row id
differs from the selected one keeps its action too. -/
theorem setActionFrame (photos : List PhotoItem) (i a : String) :
    List.Forall₂ (fun p q => q.path = p.path ∧ q.date_taken = p.date_taken ∧
      q.item_id = p.item_id ∧ (p.item_id ≠ some i → q.action = p.action))
      photos (set_action photos i a) := by
  induction photos with
  | nil => exact List.Forall₂.nil
  | cons p rest ih =>
    by_cases h : p.item_id = some i
    · simp only [set_action, h, if_pos]
      exact List.Forall₂.cons ⟨rfl, rfl, h.symm, fun hne => absurd h hne⟩
        ((List.forall₂_same).2 (fun x _ => ⟨rfl, rfl, rfl, fun _ => rfl⟩))
    · simp only [set_action, h, if_neg, ite_false]
      exact List.Forall₂.cons ⟨rfl, rfl, rfl, fun _ => rfl⟩ ih

/-- Helper: `set_action` stores the given action string verbatim on the selected
record, whatever that string is. -/
theorem setActionStores (photos : List PhotoItem) (i a : String) :
    (∃ p ∈ photos, p.item_id = some i) →
    ∃ q ∈ set_action photos i a, q.item_id = some i ∧ q.action = a := by
  induction photos with
  | nil => rintro ⟨p, hp, _⟩; cases hp
  | cons p rest ih =>
    rintro ⟨q, hq, hqi⟩
    by_cases h : p.item_id = some i
    · refine ⟨{ p with action := a }, ?_, h, rfl⟩
      simp [set_action, h]
    · rcases List.mem_cons.1 hq with rfl | hq2
      · exact absurd hqi h
      · obtain ⟨q2, hq2m, hq2i, hq2a⟩ := ih ⟨q, hq2, hqi⟩
        exact ⟨q2, by simp [set_action, h, hq2m], hq2i, hq2a⟩

/-- C8: records are created with action `"Copy"`, and setting one
record's action leaves every other record — and the target's own path,
capture date and row id — unchanged, while a selected row that exists
does receive the requested action. -/
theorem c8_set_action (photos : List PhotoItem) (i a : String) :
    List.Forall₂ (fun p q => q.path = p.path ∧ q.date_taken = p.date_taken ∧
      q.item_id = p.item_id ∧ (p.item_id ≠ some i → q.action = p.action))
      photos (set_action photos i a) ∧
    ((∃ p ∈ photos, p.item_id = some i) →
      ∃ q ∈ set_action photos i a, q.item_id = some i ∧ q.action = a) ∧
    (∀ pth d, ({ path := pth, date_taken := d } : PhotoItem).action = "Copy") := by
  exact ⟨setActionFrame photos i a, setActionStores photos i a, fun _ _ => rfl⟩

/-- Catalog of two records with distinct row ids. -/
def twoRecordCatalog : List PhotoItem :=
  [{ path := "src/a.jpg", date_taken := DateTime.mk 2021 5 1 10 0 0,
     item_id := some "I1" },
   { path := "src/b.png", date_taken := DateTime.mk 2022 1 10 0 0 0,
     item_id := some "I2" }]

/-- C8 witness: marking row `I2` as `Skip` in the two-record catalog. -/
theorem c8_set_action_witness :
    ∃ q ∈ set_action twoRecordCatalog "I2" "Skip",
      q.item_id = some "I2" ∧ q.action = "Skip" := by
  exact (c8_set_action twoRecordCatalog "I2" "Skip").2.1
    ⟨{ path := "src/b.png", date_taken := DateTime.mk 2022 1 10 0 0 0,
       item_id := some "I2" }, by decide, rfl⟩

/-- An OS oracle that lets every filesystem call succeed. -/
def permAll : Perm :=
  { unlinkOk := fun _ => true, mkdirOk := fun _ => true, copyOk := fun _ _ => true }

/-- A filesystem holding the two source files of the example catalog. -/
def twoFileWorld : World :=
  { files := ["src/a.jpg", "src/b.png"], dirs := ["src"] }

/-- C10: the worker's branch test is only against `"Skip"` and
`"Delete"` — a record with any other action string is processed exactly
like a `"Copy"` record, and with the directory created, the source
present and the copy permitted it is counted in the copied counter;
moreover `set_action` stores an arbitrary string without validating it
against the three-value set. -/
theorem c10_free_action_string (perm : Perm) (dest : String) (w : World) (s : BatchState)
    (p : PhotoItem) (a : String)
    (hns : p.action ≠ "Skip") (hnd : p.action ≠ "Delete") :
    processPhoto perm dest w s p =
      processPhoto perm dest w s { p with action := "Copy" } ∧
    (perm.mkdirOk (dest ++ "/" ++ p.date_label) = true → p.path ∈ w.files →
      perm.copyOk p.path (dest ++ "/" ++ p.date_label ++ "/" ++ p.name) = true →
      processPhoto perm dest w s p =
        Except.ok
          ({ files := insertPath w.files (dest ++ "/" ++ p.date_label ++ "/" ++ p.name),
             dirs := insertPath w.dirs (dest ++ "/" ++ p.date_label) },
           { s with copied := s.copied + 1,
                    ops := s.ops ++
                      [IOOp.mkdir (dest ++ "/" ++ p.date_label),
                       IOOp.copy p.path
                         (dest ++ "/" ++ p.date_label ++ "/" ++ p.name)] })) ∧
    (∀ photos i, (∃ q ∈ photos, q.item_id = some i) →
      ∃ q ∈ set_action photos i a, q.item_id = some i ∧ q.action = a) := by
  refine ⟨?_, ?_, fun photos i h => setActionStores photos i a h⟩
  · simp only [processPhoto]
    rw [if_neg hns, if_neg hnd,
      if_neg (by decide : ¬ ("Copy" : String) = "Skip"),
      if_neg (by decide : ¬ ("Copy" : String) = "Delete")]
    rfl
  · intro hmk hmem hcopy
    simp only [processPhoto]
    rw [if_neg hns, if_neg hnd, if_pos hmk, if_pos ⟨hmem, hcopy⟩]

/-- A record carrying an action string outside the three-value set. -/
def bananaPhoto : PhotoItem :=
  { path := "src/a.jpg", date_taken := DateTime.mk 2021 5 1 10 0 0,
    action := "Banana" }

/-- C10 witness: a record whose action is `"Banana"` is processed exactly
like a `"Copy"` record and counted as copied. -/
theorem c10_free_action_string_witness :
    processPhoto permAll "dst" twoFileWorld initState bananaPhoto =
      processPhoto permAll "dst" twoFileWorld initState
        { bananaPhoto with action := "Copy" } ∧
    processPhoto permAll "dst" twoFileWorld initState bananaPhoto =
      Except.ok
        ({ files := insertPath twoFileWorld.files
              ("dst" ++ "/" ++ bananaPhoto.date_label ++ "/" ++ bananaPhoto.name),
           dirs := insertPath twoFileWorld.dirs
              ("dst" ++ "/" ++ bananaPhoto.date_label) },
         { initState with copied := initState.copied + 1,
                          ops := initState.ops ++
                            [IOOp.mkdir ("dst" ++ "/" ++ bananaPhoto.date_label),
                             IOOp.copy bananaPhoto.path
                               ("dst" ++ "/" ++ bananaPhoto.date_label ++ "/" ++
                                 bananaPhoto.name)] }) := by
  have h := c10_free_action_string permAll "dst" twoFileWorld initState bananaPhoto
    "Banana" (by decide) (by decide)
  exact ⟨h.1, h.2.1 rfl (by decide) rfl⟩

/-! ## Batch processor (claims C1, C2, C9) -/

/-- One loop iteration never raises when the date-folder `mkdir` it may
need is permitted; its accounting moves by exactly one step of the
claimed bookkeeping, and its filesystem trace is `opsOf`. -/
theorem processPhotoOk (perm : Perm) (dest : String) (w : World) (s : BatchState)
    (p : PhotoItem)
    (hmk : p.action ≠ "Skip" → p.action ≠ "Delete" →
      perm.mkdirOk (dest ++ "/" ++ p.date_label) = true) :
    ∃ w1 s1, processPhoto perm dest w s p = Except.ok (w1, s1) ∧
      s1.ops = s.ops ++ opsOf dest p ∧
      s1.skipped = s.skipped + (if p.action = "Skip" then 1 else 0) ∧
      s1.copied + s1.deleted + s1.failures.length =
        s.copied + s.deleted + s.failures.length +
          (if p.action = "Skip" then 0 else 1) ∧
      s1.copied ≤ s.copied +
        (if p.action = "Skip" ∨ p.action = "Delete" then 0 else 1) ∧
      s1.deleted ≤ s.deleted + (if p.action = "Delete" then 1 else 0) := by
  by_cases h1 : p.action = "Skip"
  · refine ⟨w, { s with skipped := s.skipped + 1 }, ?_, ?_, ?_, ?_, ?_, ?_⟩ <;>
      simp [processPhoto, opsOf, h1]
  · by_cases h2 : p.action = "Delete"
    · by_cases hdel : p.path ∈ w.files ∧ perm.unlinkOk p.path = true
      · have hstep : processPhoto perm dest w s p = Except.ok
            (⟨w.files.erase p.path, w.dirs⟩,
             { s with deleted := s.deleted + 1,
                      ops := s.ops ++ [IOOp.unlink p.path] }) := by
          simp [processPhoto, h1, h2, hdel]
        refine ⟨_, _, hstep, ?_, ?_, ?_, ?_, ?_⟩ <;> simp [opsOf, h1, h2] <;> omega
      · have hstep : processPhoto perm dest w s p = Except.ok
            (w, { s with failures := s.failures ++ ["Could not delete " ++ p.path],
                         ops := s.ops ++ [IOOp.unlink p.path] }) := by
          simp [processPhoto, h1, h2, hdel]
        refine ⟨_, _, hstep, ?_, ?_, ?_, ?_, ?_⟩ <;> simp [opsOf, h1, h2] <;> omega
    · have hmkT := hmk h1 h2
      by_cases hcp : p.path ∈ w.files ∧
          perm.copyOk p.path (dest ++ "/" ++ p.date_label ++ "/" ++ p.name) = true
      · have hstep : processPhoto perm dest w s p = Except.ok
            (⟨insertPath w.files (dest ++ "/" ++ p.date_label ++ "/" ++ p.name),
              insertPath w.dirs (dest ++ "/" ++ p.date_label)⟩,
             { s with copied := s.copied + 1,
                      ops := s.ops ++ [IOOp.mkdir (dest ++ "/" ++ p.date_label),
                        IOOp.copy p.path
                          (dest ++ "/" ++ p.date_label ++ "/" ++ p.name)] }) := by
          simp [processPhoto, h1, h2, hmkT, hcp]
        refine ⟨_, _, hstep, ?_, ?_, ?_, ?_, ?_⟩ <;> simp [opsOf, h1, h2] <;> omega
      · have hstep : processPhoto perm dest w s p = Except.ok
            (⟨w.files, insertPath w.dirs (dest ++ "/" ++ p.date_label)⟩,
             { s with failures := s.failures ++ ["Could not copy " ++ p.name],
                      ops := s.ops ++ [IOOp.mkdir (dest ++ "/" ++ p.date_label),
                        IOOp.copy p.path
                          (dest ++ "/" ++ p.date_label ++ "/" ++ p.name)] }) := by
          simp [processPhoto, h1, h2, hmkT, hcp]
        refine ⟨_, _, hstep, ?_, ?_, ?_, ?_, ?_⟩ <;> simp [opsOf, h1, h2] <;> omega

/-- The worker loop runs to completion whenever every date-folder
`mkdir` it needs is permitted, and its final accounting refines the
claimed bookkeeping: the trace is the catalog-ordered concatenation of
the per-record operations, skips are counted exactly, and each non-skip
record contributes exactly one of a counter increment or a failure
entry. -/
theorem workerRuns (perm : Perm) (dest : String) (photos : List PhotoItem) :
    ∀ (w : World) (s : BatchState),
    (∀ p ∈ photos, p.action ≠ "Skip" → p.action ≠ "Delete" →
      perm.mkdirOk (dest ++ "/" ++ p.date_label) = true) →
    ∃ w1 s1, processWorker perm dest photos w s = Except.ok (w1, s1) ∧
      s1.ops = s.ops ++ photos.flatMap (opsOf dest) ∧
      s1.skipped = s.skipped +
        (photos.filter (fun p => p.action = "Skip")).length ∧
      s1.copied + s1.deleted + s1.failures.length =
        s.copied + s.deleted + s.failures.length +
          (photos.filter (fun p => p.action ≠ "Skip")).length ∧
      s1.copied ≤ s.copied +
        (photos.filter (fun p => p.action ≠ "Skip" ∧ p.action ≠ "Delete")).length ∧
      s1.deleted ≤ s.deleted +
        (photos.filter (fun p => p.action = "Delete")).length := by
  induction photos with
  | nil =>
    intro w s _
    exact ⟨w, s, rfl, by simp, by simp, by simp, by simp, by simp⟩
  | cons p rest ih =>
    intro w s hmk
    obtain ⟨w1, s1, hpp, hops, hskip, hacct, hcople, hdelle⟩ :=
      processPhotoOk perm dest w s p (hmk p (List.mem_cons_self p rest))
    obtain ⟨w2, s2, hrun, hops2, hskip2, hacct2, hcople2, hdelle2⟩ :=
      ih w1 s1 (fun q hq => hmk q (List.mem_cons_of_mem p hq))
    refine ⟨w2, s2, ?_, ?_, ?_, ?_, ?_, ?_⟩
    · simpa [processWorker, hpp] using hrun
    · rw [hops2, hops, List.flatMap_cons, List.append_assoc]
    · rw [hskip2, hskip, List.filter_cons]
      by_cases h : p.action = "Skip" <;> simp [h] <;> omega
    · rw [hacct2, hacct, List.filter_cons]
      by_cases h : p.action = "Skip" <;> simp [h] <;> omega
    · rw [List.filter_cons]
      by_cases h1 : p.action = "Skip" <;> by_cases h2 : p.action = "Delete" <;>
        simp [h1, h2] at hcople hcople2 ⊢ <;> omega
    · rw [List.filter_cons]
      by_cases h1 : p.action = "Skip" <;> by_cases h2 : p.action = "Delete" <;>
        simp [h1, h2] at hdelle hdelle2 ⊢ <;> omega

/-- C1: the worker processes records one at a time in catalog order
(trace = catalog-ordered concatenation of each record's operations);
`Skip` only bumps the skipped counter with no I/O; `Delete` attempts
`unlink`, removing the file and bumping the deleted counter exactly on
success; `Copy` ensures `destinationDir/dateLabel` exists then copies to
`destinationDir/dateLabel/displayName` (overwriting), bumping the copied
counter exactly on success; every failed delete or copy adds a failure
notification instead of a counter, so counters plus failures account for
each non-skip record exactly once. -/
theorem c1_batch_case_analysis (perm : Perm) (dest : String) (photos : List PhotoItem)
    (w : World)
    (hmk : ∀ p ∈ photos, p.action ≠ "Skip" → p.action ≠ "Delete" →
      perm.mkdirOk (dest ++ "/" ++ p.date_label) = true) :
    (∃ w1 s1, processWorker perm dest photos w initState = Except.ok (w1, s1) ∧
      s1.ops = photos.flatMap (opsOf dest) ∧
      s1.skipped = (photos.filter (fun p => p.action = "Skip")).length ∧
      s1.copied + s1.deleted + s1.failures.length =
        (photos.filter (fun p => p.action ≠ "Skip")).length ∧
      s1.copied ≤
        (photos.filter (fun p => p.action ≠ "Skip" ∧ p.action ≠ "Delete")).length ∧
      s1.deleted ≤ (photos.filter (fun p => p.action = "Delete")).length) ∧
    (∀ w0 s0 p, p.action = "Skip" →
      processPhoto perm dest w0 s0 p =
        Except.ok (w0, { s0 with skipped := s0.skipped + 1 })) ∧
    (∀ w0 s0 p, p.action = "Delete" →
      processPhoto perm dest w0 s0 p =
        (if p.path ∈ w0.files ∧ perm.unlinkOk p.path = true then
          Except.ok (⟨w0.files.erase p.path, w0.dirs⟩,
            { s0 with deleted := s0.deleted + 1,
                      ops := s0.ops ++ [IOOp.unlink p.path] })
        else
          Except.ok (w0,
            { s0 with failures := s0.failures ++ ["Could not delete " ++ p.path],
                      ops := s0.ops ++ [IOOp.unlink p.path] }))) ∧
    (∀ w0 s0 p, p.action = "Copy" →
      perm.mkdirOk (dest ++ "/" ++ p.date_label) = true →
      processPhoto perm dest w0 s0 p =
        (if p.path ∈ w0.files ∧
            perm.copyOk p.path (dest ++ "/" ++ p.date_label ++ "/" ++ p.name) = true then
          Except.ok
            (⟨insertPath w0.files (dest ++ "/" ++ p.date_label ++ "/" ++ p.name),
              insertPath w0.dirs (dest ++ "/" ++ p.date_label)⟩,
             { s0 with copied := s0.copied + 1,
                       ops := s0.ops ++ [IOOp.mkdir (dest ++ "/" ++ p.date_label),
                         IOOp.copy p.path
                           (dest ++ "/" ++ p.date_label ++ "/" ++ p.name)] })
        else
          Except.ok (⟨w0.files, insertPath w0.dirs (dest ++ "/" ++ p.date_label)⟩,
            { s0 with failures := s0.failures ++ ["Could not copy " ++ p.name],
                      ops := s0.ops ++ [IOOp.mkdir (dest ++ "/" ++ p.date_label),
                        IOOp.copy p.path
                          (dest ++ "/" ++ p.date_label ++ "/" ++ p.name)] }))) := by
  refine ⟨?_, ?_, ?_, ?_⟩
  · obtain ⟨w1, s1, hrun, hops, hskip, hacct, hcople, hdelle⟩ :=
      workerRuns perm dest photos w initState hmk
    exact ⟨w1, s1, hrun, by simpa [initState] using hops,
      by simpa [initState] using hskip, by simpa [initState] using hacct,
      by simpa [initState] using hcople, by simpa [initState] using hdelle⟩
  · intro w0 s0 p h1
    simp [processPhoto, h1]
  · intro w0 s0 p h2
    have h1 : p.action ≠ "Skip" := by rw [h2]; decide
    by_cases hdel : p.path ∈ w0.files ∧ perm.unlinkOk p.path = true <;>
      simp [processPhoto, h1, h2, hdel]
  · intro w0 s0 p h1 hmkT
    have hns : p.action ≠ "Skip" := by rw [h1]; decide
    have hnd : p.action ≠ "Delete" := by rw [h1]; decide
    by_cases hcp : p.path ∈ w0.files ∧
        perm.copyOk p.path (dest ++ "/" ++ p.date_label ++ "/" ++ p.name) = true <;>
      simp [processPhoto, hns, hnd, hmkT, hcp]

/-- A mixed Copy / Skip / Delete catalog. -/
def batchCatalog : List PhotoItem :=
  [{ path := "src/a.jpg", date_taken := DateTime.mk 2021 5 1 10 0 0 },
   { path := "src/b.png", date_taken := DateTime.mk 2022 1 10 0 0 0,
     action := "Skip" },
   { path := "src/c.jpg", date_taken := DateTime.mk 2021 5 1 11 0 0,
     action := "Delete" }]

/-- Filesystem holding the three source files of `batchCatalog`. -/
def batchWorld : World :=
  { files := ["src/a.jpg", "src/b.png", "src/c.jpg"], dirs := ["src"] }

/-- C1 witness: the case-analysis theorem applied to a concrete mixed
catalog under an all-permitting OS: one skip and two accounted non-skip
records. -/
theorem c1_batch_case_analysis_witness :
    ∃ w1 s1, processWorker permAll "dst" batchCatalog batchWorld initState =
        Except.ok (w1, s1) ∧
      s1.skipped = 1 ∧ s1.copied + s1.deleted + s1.failures.length = 2 := by
  obtain ⟨⟨w1, s1, hrun, _, hskip, hacct, _, _⟩, _, _, _⟩ :=
    c1_batch_case_analysis permAll "dst" batchCatalog batchWorld (by decide)
  exact ⟨w1, s1, hrun, hskip.trans (by rfl), hacct.trans (by rfl)⟩

/-- An OS oracle denying directory creation (e.g. an unwritable
destination) while permitting everything else. -/
def permNoMkdir : Perm :=
  { unlinkOk := fun _ => true, mkdirOk := fun _ => false, copyOk := fun _ _ => true }

/-- A Copy record followed by a Skip record. -/
def copyThenSkipCatalog : List PhotoItem :=
  [{ path := "src/a.jpg", date_taken := DateTime.mk 2021 5 1 10 0 0 },
   { path := "src/b.png", date_taken := DateTime.mk 2022 1 10 0 0 0,
     action := "Skip" }]

/-- C2 counterexample: a failure while ensuring the date-labeled
subdirectory exists (the `mkdir` call sits outside every `try`) is fatal:
the worker raises after the `mkdir` attempt, no failure entry is
recorded, and the following Skip record is never processed (the error
state still shows `skipped = 0`), contradicting the claim that every
per-file I/O failure is non-fatal. -/
theorem c2_counterexample :
    processWorker permNoMkdir "dst" copyThenSkipCatalog twoFileWorld initState =
      Except.error (twoFileWorld,
        { copied := 0, skipped := 0, deleted := 0, failures := [],
          ops := [IOOp.mkdir "dst/2021-05-01"] }) := by
  rfl

/-- C2 (amended): failed copies and failed deletes are non-fatal — with
every needed date-folder `mkdir` permitted the batch always completes,
each non-skip record accounted by exactly one counter increment or
failure entry — but a failure creating the date-labeled subdirectory is
unhandled and aborts the batch; and with the destination directory unset
the batch refuses to start before touching any record, leaving the
filesystem as it was. -/
theorem c2_amended_failures (perm : Perm) (dest : String) (photos : List PhotoItem)
    (w : World) (confirm : Bool)
    (hmk : ∀ p ∈ photos, p.action ≠ "Skip" → p.action ≠ "Delete" →
      perm.mkdirOk (dest ++ "/" ++ p.date_label) = true) :
    (∃ w1 s1, processWorker perm dest photos w initState = Except.ok (w1, s1) ∧
      s1.copied + s1.deleted + s1.failures.length =
        (photos.filter (fun p => p.action ≠ "Skip")).length) ∧
    process_files none photos confirm perm w = RunOutcome.destinationMissing w := by
  obtain ⟨w1, s1, hrun, _, _, hacct, _, _⟩ := workerRuns perm dest photos w initState hmk
  exact ⟨⟨w1, s1, hrun, by simpa [initState] using hacct⟩, rfl⟩

/-- An OS oracle permitting `mkdir` but denying every unlink and copy. -/
def permMkdirOnly : Perm :=
  { unlinkOk := fun _ => false, mkdirOk := fun _ => true, copyOk := fun _ _ => false }

/-- C2 witness: under an oracle that fails every copy, the batch still
completes with each non-skip record accounted, and an unset destination
refuses to start. -/
theorem c2_amended_failures_witness :
    (∃ w1 s1, processWorker permMkdirOnly "dst" copyThenSkipCatalog twoFileWorld
        initState = Except.ok (w1, s1) ∧
      s1.copied + s1.deleted + s1.failures.length =
        (copyThenSkipCatalog.filter (fun p => p.action ≠ "Skip")).length) ∧
    process_files none copyThenSkipCatalog true permMkdirOnly twoFileWorld =
      RunOutcome.destinationMissing twoFileWorld := by
  exact c2_amended_failures permMkdirOnly "dst" copyThenSkipCatalog twoFileWorld
    true (by decide)

/-- Helper: `insertPath` never removes anything. -/
theorem insertPathMono (l : List String) (x y : String) (hx : x ∈ l) :
    x ∈ insertPath l y := by
  unfold insertPath
  by_cases h : y ∈ l <;> simp [h, hx]

/-- On an all-Copy catalog whose sources exist, with the needed `mkdir`
and `copy` calls permitted, the worker completes copying every record,
records no failure, and only ever adds files. -/
theorem workerAllCopy (perm : Perm) (dest : String) (photos : List PhotoItem) :
    ∀ (w : World) (s : BatchState),
    (∀ p ∈ photos, p.action = "Copy") →
    (∀ p ∈ photos, p.path ∈ w.files) →
    (∀ p ∈ photos, perm.mkdirOk (dest ++ "/" ++ p.date_label) = true) →
    (∀ p ∈ photos,
      perm.copyOk p.path (dest ++ "/" ++ p.date_label ++ "/" ++ p.name) = true) →
    ∃ w1 s1, processWorker perm dest photos w s = Except.ok (w1, s1) ∧
      s1.copied = s.copied + photos.length ∧
      s1.skipped = s.skipped ∧ s1.deleted = s.deleted ∧
      s1.failures = s.failures ∧
      ∀ x ∈ w.files, x ∈ w1.files := by
  induction photos with
  | nil =>
    intro w s _ _ _ _
    exact ⟨w, s, rfl, by simp, rfl, rfl, rfl, fun x hx => hx⟩
  | cons p rest ih =>
    intro w s hact hsrc hmk hcp
    have h1 : p.action = "Copy" := hact p (List.mem_cons_self p rest)
    have hns : p.action ≠ "Skip" := by rw [h1]; decide
    have hnd : p.action ≠ "Delete" := by rw [h1]; decide
    have hmkp := hmk p (List.mem_cons_self p rest)
    have hsrcp := hsrc p (List.mem_cons_self p rest)
    have hcpp := hcp p (List.mem_cons_self p rest)
    have hstep : processPhoto perm dest w s p = Except.ok
        (⟨insertPath w.files (dest ++ "/" ++ p.date_label ++ "/" ++ p.name),
          insertPath w.dirs (dest ++ "/" ++ p.date_label)⟩,
         { s with copied := s.copied + 1,
                  ops := s.ops ++ [IOOp.mkdir (dest ++ "/" ++ p.date_label),
                    IOOp.copy p.path
                      (dest ++ "/" ++ p.date_label ++ "/" ++ p.name)] }) := by
      simp [processPhoto, hns, hnd, hmkp, hsrcp, hcpp]
    obtain ⟨w2, s2, hrun, hcop, hskip, hdel, hfail, hmono⟩ :=
      ih ⟨insertPath w.files (dest ++ "/" ++ p.date_label ++ "/" ++ p.name),
          insertPath w.dirs (dest ++ "/" ++ p.date_label)⟩
        { s with copied := s.copied + 1,
                 ops := s.ops ++ [IOOp.mkdir (dest ++ "/" ++ p.date_label),
                   IOOp.copy p.path
                     (dest ++ "/" ++ p.date_label ++ "/" ++ p.name)] }
        (fun q hq => hact q (List.mem_cons_of_mem p hq))
        (fun q hq => insertPathMono _ _ _ (hsrc q (List.mem_cons_of_mem p hq)))
        (fun q hq => hmk q (List.mem_cons_of_mem p hq))
        (fun q hq => hcp q (List.mem_cons_of_mem p hq))
    refine ⟨w2, s2, ?_, ?_, ?_, ?_, ?_, ?_⟩
    · simpa [processWorker, hstep] using hrun
    · rw [hcop]; simp; omega
    · simpa using hskip
    · simpa using hdel
    · simpa using hfail
    · exact fun x hx => hmono x (insertPathMono _ _ _ hx)

/-- C9: with an all-Copy catalog, existing sources, and the needed
`mkdir`/`copy` calls permitted against the destination, a batch run
reports `copied = len(records)` with no failures, and re-running the same
catalog against the resulting filesystem (where the destination files
now exist and are overwritten) succeeds again with the same accounting. -/
theorem c9_rerun_accounting (perm : Perm) (dest : String) (photos : List PhotoItem)
    (w : World)
    (hact : ∀ p ∈ photos, p.action = "Copy")
    (hsrc : ∀ p ∈ photos, p.path ∈ w.files)
    (hmk : ∀ p ∈ photos, perm.mkdirOk (dest ++ "/" ++ p.date_label) = true)
    (hcp : ∀ p ∈ photos,
      perm.copyOk p.path (dest ++ "/" ++ p.date_label ++ "/" ++ p.name) = true) :
    ∃ w1 s1, processWorker perm dest photos w initState = Except.ok (w1, s1) ∧
      s1.copied = photos.length ∧ s1.failures = [] ∧
      ∃ w2 s2, processWorker perm dest photos w1 initState = Except.ok (w2, s2) ∧
        s2.copied = photos.length ∧ s2.failures = [] := by
  obtain ⟨w1, s1, hrun1, hc1, _, _, hf1, hmono1⟩ :=
    workerAllCopy perm dest photos w initState hact hsrc hmk hcp
  obtain ⟨w2, s2, hrun2, hc2, _, _, hf2, _⟩ :=
    workerAllCopy perm dest photos w1 initState hact
      (fun p hp => hmono1 _ (hsrc p hp)) hmk hcp
  exact ⟨w1, s1, hrun1, by simpa [initState] using hc1,
    by simpa [initState] using hf1, w2, s2, hrun2,
    by simpa [initState] using hc2, by simpa [initState] using hf2⟩

/-- C9 witness: rerunning the all-Copy two-record catalog under an
all-permitting OS copies both records both times. -/
theorem c9_rerun_accounting_witness :
    ∃ w1 s1, processWorker permAll "dst" twoRecordCatalog twoFileWorld initState =
        Except.ok (w1, s1) ∧
      s1.copied = twoRecordCatalog.length ∧ s1.failures = [] ∧
      ∃ w2 s2, processWorker permAll "dst" twoRecordCatalog w1 initState =
          Except.ok (w2, s2) ∧
        s2.copied = twoRecordCatalog.length ∧ s2.failures = [] := by
  exact c9_rerun_accounting permAll "dst" twoRecordCatalog twoFileWorld
    (by decide) (by decide) (by decide) (by decide)
